import Mathlib

/-!
Verification of the delivery resolution and export pipeline of
`tk-desktop-deliveries` (ShotGrid delivery tool).

The Python sources under `python/app/` are shallowly embedded: pure fragments
become Lean functions, the filesystem becomes an explicit `String → Bool`
existence oracle, the render subprocess becomes an oracle from argument lists
to accumulated standard-error output, and Python exceptions become `Except` /
`Option` values.  Machine integers are modelled by `Int` (Python integers are
unbounded, so no wrap-around modelling is needed).  Python string primitives
(`in`, `str.replace`, `str.lower`, `%`-formatting of a frame number) are
re-implemented over `List Char` with structural recursion so that every
definition evaluates inside the kernel.
-/

namespace Deliveries

/-! ## Python string primitives -/

/-- Contiguous-sublist test over lists: `pat` occurs somewhere inside `l`.
This is the semantics of Python's `pat in s` for strings (the empty pattern
occurs in every string). -/
def listIsSub (pat l : List Char) : Bool :=
  match l with
  | [] => pat.isEmpty
  | _ :: rest => pat.isPrefixOf l || listIsSub pat rest

/-- Python `pat in s` (substring containment). -/
def pyIn (pat s : String) : Bool := listIsSub pat.data s.data

/-- Python `s.lower()`. -/
def pyLower (s : String) : String := ⟨s.data.map Char.toLower⟩

/-- Python `s.endswith(pat)`. -/
def pyEndsWith (s pat : String) : Bool := pat.data.reverse.isPrefixOf s.data.reverse

/-- One step of Python `str.replace`: fuelled so that the recursion is
structural and the function evaluates inside the kernel.  Scans left to right;
at each position a (non-empty) occurrence of `old` is replaced by `new` and the
scan resumes after the occurrence (Python replaces non-overlapping occurrences
left to right).  The fuel is always instantiated with the length of the
scanned list, which suffices (`replaceFuel_eq_of_le`). -/
def replaceFuel (old new : List Char) : Nat → List Char → List Char
  | _, [] => []
  | 0, l => l
  | fuel + 1, c :: rest =>
    if old.isPrefixOf (c :: rest) && !old.isEmpty then
      new ++ replaceFuel old new fuel (rest.drop (old.length - 1))
    else
      c :: replaceFuel old new fuel rest

/-- Python `s.replace(old, new)` over `List Char` (for the non-empty patterns
used by the source; Python's behaviour for an empty pattern is not needed and
not modelled faithfully by the guard above). -/
def pyReplaceL (old new l : List Char) : List Char := replaceFuel old new l.length l

/-- Python `s.replace(old, new)` on strings. -/
def pyReplace (s old new : String) : String := ⟨pyReplaceL old.data new.data s.data⟩

/-- Replace the first occurrence of `old` (used for `%`-formatting a frame
number into a path: the conversion specifier is substituted once). -/
def replaceFirstL (old new : List Char) : List Char → List Char
  | [] => []
  | c :: rest =>
    if old.isPrefixOf (c :: rest) then new ++ (c :: rest).drop old.length
    else c :: replaceFirstL old new rest

/-- Python dict lookup on an association list built by successive
`entry[key] = value` assignments in list order: the **last** assignment to a
key wins. `none` models a missing key. -/
def dictGet (entry : List (String × String)) (k : String) : Option String :=
  (entry.reverse.find? (fun p => p.1 == k)).map (·.2)

/-! ## Frame-placeholder handling

`models/field_template_string.py` searches file names with the regular
expression `(%0(\d)d)`; `model.py` formats `sequence_path % frame`.  Both are
modelled over the `%0Nd` conversion specifiers actually produced by the
pipeline's path templates. -/

/-- A `%0Nd` frame token starting exactly at the head of the list
(`re` pattern `(%0(\d)d)` anchored at this position). -/
def frameTokenAt : List Char → Option (List Char)
  | '%' :: '0' :: d :: 'd' :: _ => if d.isDigit then some ['%', '0', d, 'd'] else none
  | _ => none

/-- `re.search(r"(%0(\d)d)", s)`: the first (leftmost) frame token of `s`. -/
def findFrameToken : List Char → Option (List Char)
  | [] => none
  | c :: rest =>
    match frameTokenAt (c :: rest) with
    | some tok => some tok
    | none => findFrameToken rest

/-- Zero-padded decimal rendering of an integer to (at least) `width`
characters, the semantics of Python's `"%0Nd" % n` (a minus sign counts
towards the width). -/
def zeroPad (width : Nat) (n : Int) : String :=
  let digits := toString n.natAbs
  let sign := if n < 0 then "-" else ""
  sign ++ String.mk (List.replicate (width - (sign.length + digits.length)) '0') ++ digits

/-- Python `path % frame` for a path holding one `%0Nd` conversion specifier.
`none` models the `TypeError` Python raises when the path holds no conversion
specifier at all ("not all arguments converted during string formatting").
(A path with several specifiers would also raise in Python; the pipeline's
sequence paths hold at most one and the claims below use at most one.) -/
def formatFrame (path : String) (frame : Int) : Option String :=
  match findFrameToken path.data with
  | none => none
  | some tok =>
    let width := tok.getD 2 '0'
    some ⟨replaceFirstL tok (zeroPad (width.toNat - '0'.toNat) frame).data path.data⟩

/-! ## The in-memory Version record (`models/version.py`)

Only the fields the verified code paths read are carried.  The constructor
normalisations that matter here are modelled separately: an empty
`sequence_path` / `path_to_movie` is stored as `None`, and
`Version.__init__` stores `max(0, int(version_number))`
(`models/version.py` line 59). -/

structure Version where
  id : Int := 0
  code : String := ""
  firstFrame : Option Int := none
  lastFrame : Option Int := none
  fps : Option String := none
  versionNumber : Int := 0
  sequencePath : Option String := none
  pathToMovie : Option String := none
  framesHaveSlate : Bool := false
  deliverPreview : Bool := true
  deliverSequence : Bool := true
  sequenceOutputStatus : String := ""
deriving Repr, DecidableEq

/-- `Version.__init__`: `self.version_number = max(0, int(version_number))`. -/
def storedVersionNumber (versionNumber : Int) : Int := max 0 versionNumber

/-- `model.py` `get_shots_information_list` (and the asset loader): the
`version_number` argument passed to `Version(...)` is the published file's
number when a published file was found, else `-1`. -/
def loaderVersionNumberArg (publishedFileNumber : Option Int) : Int :=
  publishedFileNumber.getD (-1)

/-! ## Validation engine (`model.py` lines 750-908) -/

/-- `DeliveryModel.validate_fields`: required-field checks, appending one
diagnostic per failed check, in source order.  `isFile` is the filesystem
oracle for `Path(...).is_file()`. -/
def validateFields (isFile : String → Bool) (v : Version) : List String :=
  (match v.firstFrame with
   | none => ["The sg_first_frame field on this version is empty or invalid."]
   | some f => if f < 0 then ["The sg_first_frame field on this version is empty or invalid."] else []) ++
  (match v.lastFrame with
   | none => ["The sg_last_frame field on this version is empty or invalid."]
   | some f => if f < 0 then ["The sg_last_frame field on this version is empty or invalid."] else []) ++
  (match v.fps with
   | none => ["The sg_uploaded_movie_frame_rate field on this version is empty."]
   | some s => if s = "" then ["The sg_uploaded_movie_frame_rate field on this version is empty."] else []) ++
  (match v.pathToMovie with
   | none => ["The path_to_movie field on this version is empty."]
   | some p =>
     if p = "" then ["The path_to_movie field on this version is empty."]
     else if !isFile p then ["The path_to_movie field on this version points to a nonexistent file."]
     else []) ++
  (if v.deliverSequence then
    match v.sequencePath with
    | none => ["The published file(path) is empty."]
    | some p =>
      if p = "" then ["The published file(path) is empty."]
      else
        (if pyEndsWith p ".mov" then
          ["Linked version file on this version is a reference MOV, not an EXR sequence."]
         else []) ++
        (if v.versionNumber = -1 then
          ["The linked published file doesn't have a version."]
         else [])
   else [])

/-- `range(first, last)` over `Int`: the half-open integer interval. -/
def intRange (first last : Int) : List Int :=
  (List.range (last - first).toNat).map (fun (i : Nat) => first + (i : Int))

/-- The frame sweep of `DeliveryModel.validate_all_frames_exist`: format each
frame path; a formatting `TypeError` returns the single abort diagnostic,
otherwise a missing file appends one diagnostic and the sweep continues. -/
def frameSweep (isFile : String → Bool) (seqPath : Option String) : List Int → List String
  | [] => []
  | f :: rest =>
    match seqPath.bind (fun p => formatFrame p f) with
    | none => ["Could not format filepath. Are the EXRs correctly linked?"]
    | some path =>
      (if isFile path then [] else ["Can't find frame " ++ toString f ++ "."]) ++
      frameSweep isFile seqPath rest

/-- `DeliveryModel.validate_all_frames_exist` (model.py lines 877-908): a
missing frame range yields the single frame-range diagnostic; otherwise the
`[first_frame, last_frame)` sweep runs. -/
def validateAllFramesExist (isFile : String → Bool) (v : Version) : List String :=
  match v.firstFrame, v.lastFrame with
  | some first, some last =>
    if first < 0 ∨ last < 0 then
      ["Shot version is missing frame range data (sg_first_frame, sg_last_frame)."]
    else
      frameSweep isFile v.sequencePath (intRange first last)
  | _, _ =>
    ["Shot version is missing frame range data (sg_first_frame, sg_last_frame)."]

/-- The per-version body of `DeliveryModel.validate_all_versions` (model.py
lines 780-798): the reported error list for one version.  The source wraps the
call to `validate_all_frames_exist` in `try/except ValidationError` and keeps
only what that `except` catches; `validate_all_frames_exist` returns its
diagnostics and raises nothing, so its return value is discarded and nothing
is appended (`errors.extend` is applied only to `validate_fields`). -/
def reportedValidationErrors (isFile : String → Bool) (v : Version) : List String :=
  let errors := validateFields isFile v
  let _discardedFrameErrors :=
    if v.deliverSequence then validateAllFramesExist isFile v else []
  errors

/-! ## Version ordering inside an entity (`models/shot.py`, `models/asset.py`) -/

/-- The key order of `sorted(self._versions, key=lambda v: v.version_number)`. -/
def versionOrder (a b : Version) : Prop := a.versionNumber ≤ b.versionNumber

instance : DecidableRel versionOrder :=
  fun a b => inferInstanceAs (Decidable (a.versionNumber ≤ b.versionNumber))

instance : IsTotal Version versionOrder := ⟨fun a b => Int.le_total a.versionNumber b.versionNumber⟩

instance : IsTrans Version versionOrder := ⟨fun _ _ _ h1 h2 => le_trans h1 h2⟩

/-- `Shot.add_version` (models/shot.py lines 53-55): append, then re-sort by
`version_number`.  Python's `sorted` is a stable sort; `List.insertionSort` is
also stable, and any two stable sorts of the same list under the same key
agree, so this is the same function. -/
def shotAddVersion (versions : List Version) (v : Version) : List Version :=
  List.insertionSort versionOrder (versions ++ [v])

/-- `Asset.add_version` (models/asset.py lines 44-46): identical body. -/
def assetAddVersion (versions : List Version) (v : Version) : List Version :=
  List.insertionSort versionOrder (versions ++ [v])

/-! ## Rerender decision (`model.py` `_deliver_sequence`, lines 1279-1317) -/

/-- `models/sequence_output.py`: a configured sequence-output policy.  The
`settings` dict is modelled as an association list. -/
structure SequenceOutput where
  name : String := ""
  extension : String := ""
  status : String := ""
  settings : List (String × String) := []
deriving Repr, DecidableEq

/-- The EXR header returned by the frame-sequence metadata reader for the
source's first frame: the `compression` tag when present, and the channel-name
set when the `channels` key is present. -/
structure ExrHeader where
  compression : Option String := none
  channels : Option (List String) := none
deriving Repr, DecidableEq

/-- CPython semantics of the comparison `output.settings.keys() == ["compression"]`
on model.py line 1294: `dict.keys()` returns a `dict_keys` view object, and in
Python 3 comparing a `dict_keys` view with a `list` is never equal (neither
side's `__eq__` recognises the other, so the comparison falls back to identity
and yields `False`), whatever the dict holds.  -/
def pyDictKeysEqList (_settings : List (String × String)) (_l : List String) : Bool := false

/-- Modelled from the spec: `EXR_COMPRESSION` is imported by model.py from
`models/util.py`, but its definition is absent from the repository's source
files; spec section 4.2 describes it as "a fixed compression-name table
(falling back to `unknown`)".  The table maps the standard OpenEXR raw
compression tags to friendly names. -/
def EXR_COMPRESSION_get (tag : String) : String :=
  match tag with
  | "NO_COMPRESSION" => "None"
  | "RLE_COMPRESSION" => "RLE"
  | "ZIPS_COMPRESSION" => "ZIPS"
  | "ZIP_COMPRESSION" => "ZIP"
  | "PIZ_COMPRESSION" => "PIZ"
  | "PXR24_COMPRESSION" => "PXR24"
  | "B44_COMPRESSION" => "B44"
  | "B44A_COMPRESSION" => "B44A"
  | "DWAA_COMPRESSION" => "DWAA"
  | "DWAB_COMPRESSION" => "DWAB"
  | _ => "unknown"

/-- The compression comparison on model.py lines 1296-1305: the requested
value (lowercased) is a substring of the raw tag with every `_COMPRESSION`
removed and lowercased, or of the friendly name lowercased. -/
def compressionMatches (requested tag : String) : Bool :=
  pyIn (pyLower requested) (pyLower (pyReplace tag "_COMPRESSION" "")) ||
  pyIn (pyLower requested) (pyLower (EXR_COMPRESSION_get tag))

/-- The `should_rerender` decision of `DeliveryModel._deliver_sequence`
(model.py lines 1279-1317): first policy whose `status` equals the version's
`sequence_output_status` tag is matched; then the compression-only gate (which
`pyDictKeysEqList` renders unreachable), else unconditional rerender; finally
the strip-alpha override. -/
def shouldRerenderSequence (outputs : List SequenceOutput) (seqStatus : String)
    (header : ExrHeader) (removeAlphaFromSequence : Bool) : Bool :=
  let output := outputs.find? (fun o => o.status == seqStatus)
  let afterPolicy :=
    match output with
    | none => false
    | some o =>
      if pyDictKeysEqList o.settings ["compression"] then
        match header.compression with
        | some tag =>
          !compressionMatches ((dictGet o.settings "compression").getD "") tag
        | none => false
      else true
  afterPolicy ||
    (removeAlphaFromSequence &&
      (match header.channels with
       | some chs => chs.contains "A"
       | none => false))

/-! ## Fast-path sequence delivery (`model.py` lines 1447-1482)

When no rerender is needed, frames `range(first_frame, last_frame + 1)` (with
`first_frame` incremented once when `frames_have_slate`) are hard-linked or
copied one by one, and after each frame the loop reports
`(frame - first_frame) / (version.last_frame - first_frame)`. -/

/-- The slate adjustment applied to the first frame on both delivery paths. -/
def adjustedFirstFrame (firstFrame : Int) (framesHaveSlate : Bool) : Int :=
  if framesHaveSlate then firstFrame + 1 else firstFrame

/-- Result of the fast-path loop: the progress values reported (in frame
order) and whether the loop ran to completion (`false` models the uncaught
`ZeroDivisionError`). -/
structure FastPathResult where
  progressReports : List ℚ
  completed : Bool
deriving Repr, DecidableEq

/-- The fast-path loop of `_deliver_sequence`.  Python evaluates
`(frame - first_frame) / (version.last_frame - first_frame)` after delivering
each frame; when the loop body runs at least once and the denominator is zero
the first iteration raises `ZeroDivisionError` after its file operation and
before any progress is reported. -/
def fastPathDeliver (firstFrame lastFrame : Int) (framesHaveSlate : Bool) : FastPathResult :=
  let first := adjustedFirstFrame firstFrame framesHaveSlate
  let frames := intRange first (lastFrame + 1)
  if frames ≠ [] ∧ lastFrame - first = 0 then
    ⟨[], false⟩
  else
    ⟨frames.map (fun f => ((f - first : Int) : ℚ) / ((lastFrame - first : Int) : ℚ)), true⟩

/-! ## Per-version delivery error containment (`model.py` `deliver_version`,
lines 910-1176) -/

/-- The exceptions distinguished by `deliver_version`'s `except` clauses.
`other` stands for any exception that is neither `FileExistsError` nor the
render wrapper's `LicenseError` (Python's `except Exception`). -/
inductive DeliveryExc where
  | fileExists
  | license (msg : String)
  | other (msg : String)
deriving Repr, DecidableEq

/-- `models/__init__`-level `Deliverables`: the effective per-run delivery
intent pair. -/
structure Deliverables where
  deliverSequence : Bool
  deliverPreview : Bool
deriving Repr, DecidableEq

/-- The mutable per-version UI state `deliver_version` writes to. -/
structure VState where
  validationMessage : String := ""
  validationError : String := ""
deriving Repr, DecidableEq

/-- `DeliveryModel.deliver_version`: the body of the `try` block is abstracted
as a state transformer that either finishes (returning the mutated version
state, whose last mutation is `validation_message = "Export finished!"`) or is
interrupted by an exception after some mutations.  The three `except` clauses
(model.py lines 1161-1176) catch everything and write the corresponding
user-facing `validation_error`; nothing re-raises.  When neither deliverable
is requested the function returns before the `try` block. -/
def deliverVersion (deliverables : Deliverables)
    (body : VState → VState × Option DeliveryExc) (v : VState) : VState :=
  if !(deliverables.deliverPreview || deliverables.deliverSequence) then v
  else
    let r := body v
    match r.2 with
    | none => r.1
    | some .fileExists =>
      { r.1 with validationError := "Files already exist. Has this shot been exported before?" }
    | some (.license _) =>
      { r.1 with validationError := "A Nuke license error occurred!" }
    | some (.other _) =>
      { r.1 with validationError := "An error occurred while making the delivery, please check logs!" }

/-- The export batch loop (`models/export_shots_thread.py` lines 167-187):
every `(deliverables, body, state)` triple is passed to `deliver_version` in
order; since `deliver_version` returns normally in all cases, every triple is
processed. -/
def runDeliveryBatch
    (items : List (Deliverables × (VState → VState × Option DeliveryExc) × VState)) :
    List VState :=
  items.map (fun item => deliverVersion item.1 item.2.1 item.2.2)

/-! ## Render-process wrapper (`models/nuke_process.py`) -/

/-- The recoverable stderr marker checked on nuke_process.py line 115. -/
def timecodeErrorMarker : String := "AddTimeCode: Invalid start time code"

/-- The argument flag stripped together with its value on retry. -/
def timecodeRefFlag : String := "--timecode-ref"

/-- `i = new_args.index("--timecode-ref"); del new_args[i : i + 2]`: remove the
first occurrence of the flag and the element after it. -/
def removeTimecodePair : List String → List String
  | [] => []
  | a :: rest => if a == "--timecode-ref" then rest.drop 1 else a :: removeTimecodePair rest

/-- The wrapper state that `NukeProcess.reset` clears. -/
structure NPState where
  hasStarted : Bool := false
  hasRendered : Bool := false
  errorMessage : String := ""
deriving Repr, DecidableEq

/-- `NukeProcess.reset` (nuke_process.py lines 130-136): not-started,
not-rendered, error buffer cleared; it also reports progress `0`
(`update_progress_bars(0)`), recorded in the run trace below. -/
def npResetState : NPState := { hasStarted := false, hasRendered := false, errorMessage := "" }

/-- How one `NukeProcess.run` call ends: normally, or raising
`Exception(self._error_message)`. -/
inductive RunOutcome where
  | ok
  | raised (msg : String)
deriving Repr, DecidableEq

/-- Observable trace of `NukeProcess.run`: the subprocess invocations made (in
order, each with its argument list), the progress values reported by `reset`
calls, the final wrapper state and the outcome. -/
structure RunTrace where
  invocations : List (List String)
  resetProgress : List Int
  final : NPState
  outcome : RunOutcome
deriving Repr, DecidableEq

/-- Fuelled body of `NukeProcess.run` (nuke_process.py lines 98-128).
`oracle args` is the standard-error text the subprocess invocation with
argument list `args` accumulates into `_error_message` before exiting.  After
exit: an empty buffer returns normally; a buffer mentioning the invalid start
timecode while `--timecode-ref` is among the arguments strips the flag pair,
resets the state (reporting progress 0) and re-invokes; any other non-empty
buffer raises with the buffer as message.  The stdout-driven handler
`_on_output` (start/rendering transitions, frame progress) runs
asynchronously off the subprocess's standard output and is outside this
model: the wrapper state recorded here changes only through the stderr
accumulation and through `reset`.  The fuel is always instantiated
with more than `args.length`, which suffices because each retry strips at
least one argument (`npRun_unfold`). -/
def npRunFuel (oracle : List String → String) : Nat → List String → NPState → RunTrace
  | 0, _, s => ⟨[], [], s, .raised ""⟩
  | fuel + 1, args, s =>
    let s1 : NPState := { s with errorMessage := s.errorMessage ++ oracle args }
    if s1.errorMessage == "" then ⟨[args], [], s1, .ok⟩
    else if pyIn timecodeErrorMarker s1.errorMessage && args.contains timecodeRefFlag then
      let t := npRunFuel oracle fuel (removeTimecodePair args) npResetState
      ⟨args :: t.invocations, 0 :: t.resetProgress, t.final, t.outcome⟩
    else ⟨[args], [], s1, .raised s1.errorMessage⟩

/-- `NukeProcess.run`, with the fuel discharged. -/
def npRun (oracle : List String → String) (args : List String) (s : NPState) : RunTrace :=
  npRunFuel oracle (args.length + 1) args s

/-! ## Field-template resolution of file names
(`models/field_template_string.py` `apply_context`, lines 248-271) -/

/-- The literal `f"[{first_frame}-{last}]"` range string. -/
def rangeToken (first last : Int) : String :=
  "[" ++ toString first ++ "-" ++ toString last ++ "]"

/-- `file.name`: the file's base name, returned unchanged. -/
def resolveFileName (fileName : String) : String := fileName

/-- `file.name_ranged` (field_template_string.py lines 253-271): search the
base name for the first `%0Nd` token; if found, `str.replace` every occurrence
of that token's text with the literal `[first-last]` range, `first` being the
version's first frame decremented by one when the file context declares a
slate frame. -/
def resolveFileNameRanged (fileName : String) (firstFrame lastFrame : Int)
    (hasSlate : Bool) : String :=
  match findFrameToken fileName.data with
  | none => fileName
  | some tok =>
    let first := if hasSlate then firstFrame - 1 else firstFrame
    ⟨pyReplaceL tok (rangeToken first lastFrame).data fileName.data⟩

/-- Substitution of one resolved file field into the template text:
`template.replace(f"<{entity}.{field}>", str(field_value))`
(field_template_string.py lines 374-377). -/
def applyFileFieldTemplate (template field value : String) : String :=
  pyReplace template ("<file." ++ field ++ ">") value

/-! ## Delivery-version numbering (`models/export_shots_thread.py`
`run`, lines 80-133) -/

/-- One entry of `base_path.iterdir()`: plain files are skipped
(`if item.is_file(): continue`), and `delivery_folder_template.get_fields`
either yields the folder's `delivery_version` and `delivery_date` fields
(the date is modelled as an ordinal day number) or raises (the bare `except:
continue`), modelled as `none`. -/
structure SiblingItem where
  itemIsFile : Bool := false
  parsedFields : Option (Int × Int) := none
deriving Repr, DecidableEq

/-- The `delivered_versions` comprehension (lines 115-120): versions of the
parsed sibling folders, kept when `continuous_versioning` is configured or the
folder's `delivery_date` is today. -/
def countedDeliveryVersions (siblings : List SiblingItem) (continuousVersioning : Bool)
    (today : Int) : List Int :=
  ((siblings.filterMap (fun s => if s.itemIsFile then none else s.parsedFields)).filter
    (fun f => continuousVersioning || f.2 == today)).map (·.1)

/-- The claimed delivery-version number for one episode bucket (lines 87-128):
the user's explicit `delivery_version` when supplied, else
`max(delivered_versions or [0]) + 1`. -/
def computeDeliveryVersion (explicit : Option Int) (siblings : List SiblingItem)
    (continuousVersioning : Bool) (today : Int) : Int :=
  match explicit with
  | some v => v
  | none => (countedDeliveryVersions siblings continuousVersioning today).max?.getD 0 + 1

/-! ## CSV manifest generation (`models/export_shots_thread.py` `create_csv`,
lines 213-524)

The manifest is modelled as its list of rows (row 0 the header).  Reading an
existing manifest keys each data row by the on-disk header
(`entry[header[j]] = row[j]`; a data row shorter than its header would raise
`IndexError` in the source — rows written by this code always have full
length, and `List.zip` truncates instead).  Writing emits the current header,
then every existing row reprojected onto the current header (missing columns
backfilled empty), then every freshly generated row. -/

/-- One parsed data row, keyed by the on-disk header. -/
def rowToEntry (header row : List String) : List (String × String) := header.zip row

/-- Lines 245-258: parse the manifest already on disk into keyed entries
(an empty or missing file yields no entries). -/
def parseManifest (content : List (List String)) : List (List (String × String)) :=
  match content with
  | [] => []
  | header :: rows => rows.map (rowToEntry header)

/-- Lines 267-274: re-emit one existing row under the current header, reading
each current column from the entry and defaulting missing columns to `""`. -/
def reprojectRow (header : List String) (entry : List (String × String)) : List String :=
  header.map (fun h => (dictGet entry h).getD "")

/-- One full `create_csv` pass against a destination whose manifest file holds
`existingFile` (as rows; `[]` for no file): the merged file written back.
`generated` is the list of rows freshly resolved for the delivered artifacts
that exist on disk (lines 276-523). -/
def createCsvOutput (currentHeader : List String) (existingFile : List (List String))
    (generated : List (List String)) : List (List String) :=
  currentHeader :: ((parseManifest existingFile).map (reprojectRow currentHeader) ++ generated)

/-! ## Helper lemmas: the fuelled functions compute their intended recurrences -/

theorem replaceFuel_nil (old new : List Char) (fuel : Nat) :
    replaceFuel old new fuel [] = [] := by
  cases fuel <;> rfl

theorem replaceFuel_eq_of_le (old new : List Char) :
    ∀ (fuel : Nat) (l : List Char), l.length ≤ fuel →
      replaceFuel old new fuel l = pyReplaceL old new l := by
  intro fuel
  induction fuel using Nat.strong_induction_on with
  | h fuel ih =>
    intro l hl
    match fuel, l with
    | f, [] => rw [replaceFuel_nil]; rfl
    | 0, c :: rest => simp at hl
    | fuel + 1, c :: rest =>
      have hrest : rest.length ≤ fuel := by simpa using hl
      have hdrop : (rest.drop (old.length - 1)).length ≤ fuel :=
        le_trans (by simp) hrest
      show (if old.isPrefixOf (c :: rest) && !old.isEmpty then
              new ++ replaceFuel old new fuel (rest.drop (old.length - 1))
            else c :: replaceFuel old new fuel rest) = pyReplaceL old new (c :: rest)
      rw [pyReplaceL]
      show _ = (if old.isPrefixOf (c :: rest) && !old.isEmpty then
              new ++ replaceFuel old new rest.length (rest.drop (old.length - 1))
            else c :: replaceFuel old new rest.length rest)
      by_cases h : (old.isPrefixOf (c :: rest) && !old.isEmpty) = true
      · rw [if_pos h, if_pos h,
          ih fuel (Nat.lt_succ_self fuel) _ hdrop,
          ih rest.length (Nat.lt_succ_of_le hrest) _ (by simp)]
      · rw [if_neg h, if_neg h, ih fuel (Nat.lt_succ_self fuel) _ hrest,
          ih rest.length (Nat.lt_succ_of_le hrest) _ le_rfl]

theorem pyReplaceL_nil (old new : List Char) : pyReplaceL old new [] = [] := rfl

/-- The defining left-to-right recurrence of `pyReplaceL`. -/
theorem pyReplaceL_cons (old new : List Char) (c : Char) (rest : List Char) :
    pyReplaceL old new (c :: rest) =
      if old.isPrefixOf (c :: rest) && !old.isEmpty then
        new ++ pyReplaceL old new (rest.drop (old.length - 1))
      else
        c :: pyReplaceL old new rest := by
  show replaceFuel old new (rest.length + 1) (c :: rest) = _
  show (if old.isPrefixOf (c :: rest) && !old.isEmpty then
          new ++ replaceFuel old new rest.length (rest.drop (old.length - 1))
        else c :: replaceFuel old new rest.length rest) = _
  by_cases h : (old.isPrefixOf (c :: rest) && !old.isEmpty) = true
  · rw [if_pos h, if_pos h, replaceFuel_eq_of_le old new rest.length _ (by simp)]
  · rw [if_neg h, if_neg h, replaceFuel_eq_of_le old new rest.length rest le_rfl]

/-- A list is `isPrefixOf` any extension of itself. -/
theorem isPrefixOf_append_self (l t : List Char) : l.isPrefixOf (l ++ t) = true := by
  induction l with
  | nil => simp [List.isPrefixOf]
  | cons c rest ih => simp [List.isPrefixOf, ih]

/-- Replacing a non-empty pattern in exactly itself yields the replacement. -/
theorem pyReplaceL_self (old new : List Char) (h : old ≠ []) :
    pyReplaceL old new old = new := by
  match old, h with
  | c :: rest, _ =>
    rw [pyReplaceL_cons]
    have hpre : (c :: rest).isPrefixOf (c :: rest) = true := by
      simpa using isPrefixOf_append_self (c :: rest) []
    simp [hpre, List.isEmpty, pyReplaceL_nil]

/-- A pattern occurring nowhere in `b` is not replaced. -/
theorem pyReplaceL_of_no_occurrence (tok new : List Char) :
    ∀ b : List Char, (∀ j, j < b.length → tok.isPrefixOf (b.drop j) = false) →
      pyReplaceL tok new b = b := by
  intro b
  induction b with
  | nil => intro _; rfl
  | cons c rest ih =>
    intro h
    have h0 : tok.isPrefixOf (c :: rest) = false := by simpa using h 0 (by simp)
    have hrest := ih (fun j hj => by simpa using h (j + 1) (by simpa using hj))
    rw [pyReplaceL_cons, h0]
    simp [hrest]

/-- A list starting with a frame token is recognised by `frameTokenAt`. -/
theorem frameTokenAt_of_isPrefixOf (d : Char) (hd : d.isDigit = true) (l : List Char)
    (h : (['%', '0', d, 'd'] : List Char).isPrefixOf l = true) :
    frameTokenAt l = some ['%', '0', d, 'd'] := by
  match l with
  | [] => simp [List.isPrefixOf] at h
  | [c0] => simp [List.isPrefixOf] at h
  | [c0, c1] => simp [List.isPrefixOf] at h
  | [c0, c1, c2] => simp [List.isPrefixOf] at h
  | c0 :: c1 :: c2 :: c3 :: rest =>
    simp only [List.isPrefixOf, Bool.and_eq_true, beq_iff_eq] at h
    obtain ⟨h0, h1, h2, h3, -⟩ := h
    subst h0; subst h1; subst h2; subst h3
    simp [frameTokenAt, hd]

/-- Replacing a pattern with exactly one occurrence: the parts before and
after it are kept and the occurrence becomes the replacement.  The first
hypothesis says no occurrence starts inside `a` (not even one reaching into
the token), the second that none starts inside `b`. -/
theorem pyReplaceL_single_occurrence (tok new : List Char) (htok : tok ≠ []) :
    ∀ (a b : List Char),
      (∀ i, i < a.length → tok.isPrefixOf ((a ++ tok ++ b).drop i) = false) →
      (∀ j, j < b.length → tok.isPrefixOf (b.drop j) = false) →
      pyReplaceL tok new (a ++ tok ++ b) = a ++ new ++ b := by
  intro a
  induction a with
  | nil =>
    intro b _ hb
    match tok, htok with
    | t :: tt, _ =>
      have hpre : (t :: tt).isPrefixOf (t :: (tt ++ b)) = true := by
        have := isPrefixOf_append_self (t :: tt) b
        simpa [List.cons_append] using this
      have hdrop : (tt ++ b).drop ((t :: tt).length - 1) = b := by
        simpa using List.drop_left tt b
      show pyReplaceL (t :: tt) new ((t :: tt) ++ b) = [] ++ new ++ b
      rw [List.cons_append, pyReplaceL_cons, hpre]
      simp only [Bool.true_and, List.isEmpty, Bool.not_false, if_true]
      rw [hdrop, pyReplaceL_of_no_occurrence (t :: tt) new b hb]
      simp
  | cons c a' ih =>
    intro b ha hb
    have h0 : tok.isPrefixOf (c :: (a' ++ tok ++ b)) = false := by
      simpa using ha 0 (by simp)
    have step := ih b (fun i hi => by simpa using ha (i + 1) (by simpa using hi)) hb
    simp only [List.cons_append]
    rw [pyReplaceL_cons, h0]
    simp only [Bool.false_and, Bool.false_eq_true, if_false]
    simp only [List.cons_append] at step ⊢
    rw [step]

/-- `re.search` finds the unique frame token: positions inside `a` hold no
token, the token itself starts right after `a`. -/
theorem findFrameToken_concat (d : Char) (hd : d.isDigit = true) :
    ∀ (a b : List Char),
      (∀ i, i < a.length → frameTokenAt ((a ++ ['%', '0', d, 'd'] ++ b).drop i) = none) →
      findFrameToken (a ++ ['%', '0', d, 'd'] ++ b) = some ['%', '0', d, 'd'] := by
  intro a
  induction a with
  | nil =>
    intro b _
    simp only [List.nil_append]
    show findFrameToken ('%' :: '0' :: d :: 'd' :: b) = _
    simp [findFrameToken, frameTokenAt, hd]
  | cons c a' ih =>
    intro b ha
    have h0 : frameTokenAt (c :: (a' ++ ['%', '0', d, 'd'] ++ b)) = none := by
      simpa using ha 0 (by simp)
    have step := ih b (fun i hi => by simpa using ha (i + 1) (by simpa using hi))
    simp only [List.cons_append]
    show findFrameToken (c :: (a' ++ ['%', '0', d, 'd'] ++ b)) = _
    rw [findFrameToken, h0]
    simpa using step

/-! ## Helper lemmas for the render-process wrapper -/

theorem removeTimecodePair_length_lt :
    ∀ args : List String, timecodeRefFlag ∈ args →
      (removeTimecodePair args).length < args.length := by
  intro args h
  induction args with
  | nil => simp at h
  | cons a rest ih =>
    by_cases ha : (a == "--timecode-ref") = true
    · simp only [removeTimecodePair, ha, if_true]
      have h1 : (rest.drop 1).length = rest.length - 1 := by simp
      simp only [List.length_cons]
      omega
    · have hmem : timecodeRefFlag ∈ rest := by
        rcases List.mem_cons.mp h with h' | h'
        · exact absurd (beq_iff_eq.mpr h'.symm) ha
        · exact h'
      simp only [removeTimecodePair, ha, if_false, List.length_cons]
      exact Nat.succ_lt_succ (ih hmem)

theorem npRunFuel_eq_of_lt (oracle : List String → String) :
    ∀ (fuel : Nat) (args : List String) (s : NPState), args.length < fuel →
      npRunFuel oracle fuel args s = npRun oracle args s := by
  intro fuel
  induction fuel using Nat.strong_induction_on with
  | h fuel ih =>
    intro args s hl
    match fuel, hl with
    | fuel + 1, hl =>
      have hlen : args.length ≤ fuel := Nat.lt_succ_iff.mp hl
      show _ = npRunFuel oracle (args.length + 1) args s
      rw [npRunFuel, npRunFuel]
      dsimp only
      split_ifs with h1 h2
      · rfl
      · have hmem : timecodeRefFlag ∈ args := by
          have := (Bool.and_eq_true _ _).mp h2 |>.2
          simpa using this
        have hlt := removeTimecodePair_length_lt args hmem
        rw [ih fuel (Nat.lt_succ_self fuel) _ npResetState (lt_of_lt_of_le hlt hlen),
          ih args.length hl _ npResetState hlt]
      · rfl

/-- The defining recurrence of `NukeProcess.run`: run once; on the one
recoverable error, reset and re-run with the flag pair stripped. -/
theorem npRun_unfold (oracle : List String → String) (args : List String) (s : NPState) :
    npRun oracle args s =
      (let s1 : NPState := { s with errorMessage := s.errorMessage ++ oracle args }
       if s1.errorMessage == "" then ⟨[args], [], s1, .ok⟩
       else if pyIn timecodeErrorMarker s1.errorMessage && args.contains timecodeRefFlag then
         let t := npRun oracle (removeTimecodePair args) npResetState
         ⟨args :: t.invocations, 0 :: t.resetProgress, t.final, t.outcome⟩
       else ⟨[args], [], s1, .raised s1.errorMessage⟩) := by
  show npRunFuel oracle (args.length + 1) args s = _
  rw [npRunFuel]
  dsimp only
  split_ifs with h1 h2
  · rfl
  · have hmem : timecodeRefFlag ∈ args := by
      have := (Bool.and_eq_true _ _).mp h2 |>.2
      simpa using this
    have hlt := removeTimecodePair_length_lt args hmem
    rw [npRunFuel_eq_of_lt oracle args.length _ npResetState hlt]
  · rfl

/-! ## Helper lemmas for integer ranges and the fast path -/

theorem intRange_succ_top (a b : Int) (h : a ≤ b) :
    intRange a (b + 1) = intRange a b ++ [b] := by
  have htn : (b + 1 - a).toNat = (b - a).toNat + 1 := by omega
  rw [intRange, htn, List.range_succ, List.map_append, intRange]
  congr 1
  simp only [List.map_cons, List.map_nil, List.cons.injEq, and_true]
  omega

theorem intRange_single (a : Int) : intRange a (a + 1) = [a] := by
  have h := intRange_succ_top a a le_rfl
  rw [h, intRange]
  simp

/-! ## Helper lemmas for version sorting -/

theorem foldl_shotAddVersion_perm :
    ∀ (inserts acc : List Version),
      List.Perm (List.foldl shotAddVersion acc inserts) (acc ++ inserts) := by
  intro inserts
  induction inserts with
  | nil => intro acc; simp
  | cons x l ih =>
    intro acc
    have h1 : List.Perm (List.foldl shotAddVersion (shotAddVersion acc x) l)
        (shotAddVersion acc x ++ l) := ih (shotAddVersion acc x)
    have h2 : List.Perm (shotAddVersion acc x ++ l) ((acc ++ [x]) ++ l) :=
      (List.perm_insertionSort versionOrder (acc ++ [x])).append_right l
    have h3 := h1.trans h2
    have h4 : (acc ++ [x]) ++ l = acc ++ (x :: l) := by simp
    rw [h4] at h3
    exact h3

/-! ## Helper lemmas for the CSV manifest -/

theorem dictGet_cons_ne (k : String) (c : String) (e : List (String × String))
    (h' : String) (hne : h' ≠ k) : dictGet ((k, c) :: e) h' = dictGet e h' := by
  rw [dictGet, dictGet, List.reverse_cons, List.find?_append]
  have hkh : (k == h') = false := beq_eq_false_iff_ne.mpr (fun h => hne h.symm)
  have : List.find? (fun p => p.1 == h') [(k, c)] = none := by
    simp [List.find?, hkh]
  rw [this, Option.or_none]

theorem dictGet_cons_self (k : String) (c : String) (e : List (String × String))
    (hnot : ∀ p ∈ e, p.1 ≠ k) : dictGet ((k, c) :: e) k = some c := by
  rw [dictGet, List.reverse_cons, List.find?_append]
  have h1 : List.find? (fun p => p.1 == k) e.reverse = none := by
    rw [List.find?_eq_none]
    intro p hp
    simp only [beq_iff_eq]
    exact hnot p (List.mem_reverse.mp hp)
  rw [h1, Option.none_or]
  simp [List.find?]

/-- Reading a freshly written row back under the same (duplicate-free) header
reproduces it verbatim. -/
theorem reprojectRow_rowToEntry :
    ∀ (header row : List String), header.Nodup → row.length = header.length →
      reprojectRow header (rowToEntry header row) = row := by
  intro header
  induction header with
  | nil =>
    intro row _ hlen
    rw [List.length_nil, List.length_eq_zero] at hlen
    subst hlen
    rfl
  | cons k hs ih =>
    intro row hnodup hlen
    match row with
    | c :: cs =>
      have hlen' : cs.length = hs.length := by simpa using hlen
      have hk : k ∉ hs := (List.nodup_cons.mp hnodup).1
      have hnodup' : hs.Nodup := (List.nodup_cons.mp hnodup).2
      have hzipkeys : ∀ p ∈ hs.zip cs, p.1 ≠ k := by
        intro p hp hpk
        exact hk (hpk ▸ List.of_mem_zip hp |>.1)
      rw [rowToEntry, List.zip_cons_cons, reprojectRow, List.map_cons]
      rw [dictGet_cons_self k c (hs.zip cs) hzipkeys]
      have htail : hs.map (fun h => (dictGet ((k, c) :: hs.zip cs) h).getD "") =
          hs.map (fun h => (dictGet (hs.zip cs) h).getD "") := by
        apply List.map_congr_left
        intro h hmem
        rw [dictGet_cons_ne k c (hs.zip cs) h (fun hhk => hk (hhk ▸ hmem))]
      rw [htail]
      have := ih cs hnodup' hlen'
      rw [reprojectRow, rowToEntry] at this
      rw [this]
      rfl

/-- Substituting a resolved file field into a template that consists of exactly
that field's token yields the field value. -/
theorem applyFileFieldTemplate_exact (field value : String) :
    applyFileFieldTemplate ("<file." ++ field ++ ">") field value = value := by
  show String.mk (pyReplaceL ("<file." ++ field ++ ">").data value.data
    ("<file." ++ field ++ ">").data) = value
  rw [pyReplaceL_self _ _ (by simp [String.data_append])]

/-! ## The claims -/

/-- C1: the claim states that for a version flagged for sequence delivery
whose matched `SequenceOutput` policy constrains only compression, the
rerender decision compares the source first-frame header's compression tag
against the policy value case-insensitively, and a match does not trigger
rerender while a mismatch does.  The code violates this: on model.py line 1294
`output.settings.keys() == ["compression"]` compares a `dict_keys` view with a
`list`, which is always `False` in Python 3, so the compression-comparison
branch is unreachable and any matched policy triggers a rerender
unconditionally.  At the spec's own example (policy
`settings={"compression": "dwaa"}`, header `DWAA_COMPRESSION`) the embedded
comparison matches, yet the embedded decision still orders a rerender. -/
theorem C1_compression_only_policy_always_rerenders :
    compressionMatches "dwaa" "DWAA_COMPRESSION" = true ∧
    compressionMatches "dwaa" "ZIP_COMPRESSION" = false ∧
    pyDictKeysEqList [("compression", "dwaa")] ["compression"] = false ∧
    shouldRerenderSequence
      [{ name := "EXR DWAA", extension := "exr", status := "rdy",
         settings := [("compression", "dwaa")] }] "rdy"
      { compression := some "DWAA_COMPRESSION", channels := none } false = true := by
  decide

/-- C2: the claim states that validating a version with sequence delivery
sweeps `[first_frame, last_frame)` and that the version's reported diagnostic
list contains exactly one missing-frame message per missing frame.  The sweep
itself (`validate_all_frames_exist`) does compute exactly those diagnostics,
but `validate_all_versions` wraps its call in `try/except ValidationError` and
discards the returned list (model.py line 787), so the reported diagnostics
for the claim's own example (`first_frame=10`, `last_frame=12`, only frame 10
present) are empty rather than the single "Can't find frame 11." message. -/
theorem C2_frame_sweep_diagnostics_are_discarded :
    validateAllFramesExist (fun p => p == "/m.mov" || p == "seq.0010.exr")
        { firstFrame := some 10, lastFrame := some 12, fps := some "24",
          pathToMovie := some "/m.mov", sequencePath := some "seq.%04d.exr",
          versionNumber := 3, deliverSequence := true }
      = ["Can't find frame 11."] ∧
    reportedValidationErrors (fun p => p == "/m.mov" || p == "seq.0010.exr")
        { firstFrame := some 10, lastFrame := some 12, fps := some "24",
          pathToMovie := some "/m.mov", sequencePath := some "seq.%04d.exr",
          versionNumber := 3, deliverSequence := true }
      = [] := by
  decide

/-- C3 counterexample: running the manifest generation twice against the same
destination with the same one-column schema and the same generated row (the
delivered file still exists, so the row is regenerated) writes that row twice:
the as-stated claim that rows "are not duplicated by the second run" is
false. -/
theorem C3_second_run_duplicates_existing_row :
    createCsvOutput ["Name"] (createCsvOutput ["Name"] [] [["row1"]]) [["row1"]]
      = [["Name"], ["row1"], ["row1"]] ∧
    ((createCsvOutput ["Name"] (createCsvOutput ["Name"] [] [["row1"]]) [["row1"]]).drop 1).count
      ["row1"] = 2 := by
  decide

/-- C3 (amended): with an unchanged, duplicate-free column schema, a re-run
preserves every on-disk manifest row verbatim and in order (missing columns
backfilled empty), and then appends the freshly generated rows after them with
no deduplication — so running the generation twice duplicates the rows of
files that already exist instead of being idempotent. -/
theorem C3_rerun_preserves_rows_then_appends_generated
    (header : List String) (rows generated : List (List String))
    (hnodup : header.Nodup)
    (hrows : ∀ r ∈ rows, r.length = header.length)
    (hgen : ∀ r ∈ generated, r.length = header.length) :
    createCsvOutput header (header :: rows) generated = header :: (rows ++ generated) ∧
    createCsvOutput header (createCsvOutput header [] generated) generated
      = header :: (generated ++ generated) := by
  have key : ∀ rs : List (List String), (∀ r ∈ rs, r.length = header.length) →
      createCsvOutput header (header :: rs) generated = header :: (rs ++ generated) := by
    intro rs hrs
    rw [createCsvOutput, parseManifest, List.map_map]
    congr 1
    congr 1
    have hid : ∀ r ∈ rs, (reprojectRow header ∘ rowToEntry header) r = r := by
      intro r hr
      exact reprojectRow_rowToEntry header r hnodup (hrs r hr)
    rw [List.map_congr_left hid]
    simp
  refine ⟨key rows hrows, ?_⟩
  have hfirst : createCsvOutput header [] generated = header :: generated := by
    rw [createCsvOutput, parseManifest]
    rfl
  rw [hfirst, key generated hgen]

/-- C3 witness: the amended statement applied at a concrete two-column schema
with one pre-existing row and one generated row. -/
theorem C3_rerun_witness :
    createCsvOutput ["Name", "Codec"] [["Name", "Codec"], ["a", "b"]] [["c", "d"]]
      = ["Name", "Codec"] :: ([["a", "b"]] ++ [["c", "d"]]) ∧
    createCsvOutput ["Name", "Codec"] (createCsvOutput ["Name", "Codec"] [] [["c", "d"]]) [["c", "d"]]
      = ["Name", "Codec"] :: ([["c", "d"]] ++ [["c", "d"]]) :=
  C3_rerun_preserves_rows_then_appends_generated ["Name", "Codec"] [["a", "b"]] [["c", "d"]]
    (by decide) (by decide) (by decide)

/-- C4: when the user supplies no explicit delivery version, the claimed
number for a bucket is one more than the maximum `delivery_version` extracted
from sibling delivery folders (1 when none parse, i.e. a default maximum of
0), where a folder counts only when `continuous_versioning` is on or its
extracted `delivery_date` is today; an explicit user value is used
unchanged. -/
theorem C4_delivery_version_numbering
    (explicit : Option Int) (siblings : List SiblingItem)
    (continuousVersioning : Bool) (today : Int) :
    (∀ v, explicit = some v →
      computeDeliveryVersion explicit siblings continuousVersioning today = v) ∧
    (explicit = none →
      (∀ x ∈ countedDeliveryVersions siblings continuousVersioning today,
        x < computeDeliveryVersion explicit siblings continuousVersioning today) ∧
      (countedDeliveryVersions siblings continuousVersioning today = [] →
        computeDeliveryVersion explicit siblings continuousVersioning today = 1) ∧
      (∀ m, (countedDeliveryVersions siblings continuousVersioning today).max? = some m →
        m ∈ countedDeliveryVersions siblings continuousVersioning today ∧
        computeDeliveryVersion explicit siblings continuousVersioning today = m + 1) ∧
      (∀ x, x ∈ countedDeliveryVersions siblings continuousVersioning today ↔
        ∃ s ∈ siblings, s.itemIsFile = false ∧
          ∃ dd, s.parsedFields = some (x, dd) ∧
            (continuousVersioning = true ∨ dd = today))) := by
  constructor
  · intro v h
    rw [h]
    rfl
  · intro hnone
    subst hnone
    refine ⟨?_, ?_, ?_, ?_⟩
    · intro x hx
      cases hm : (countedDeliveryVersions siblings continuousVersioning today).max? with
      | none =>
        rw [List.max?_eq_none_iff] at hm
        rw [hm] at hx
        simp at hx
      | some m =>
        have hle := (List.max?_le_iff (fun a b c => max_le_iff) hm).mp le_rfl x hx
        show x < (countedDeliveryVersions siblings continuousVersioning today).max?.getD 0 + 1
        rw [hm]
        simp only [Option.getD_some]
        omega
    · intro hempty
      show (countedDeliveryVersions siblings continuousVersioning today).max?.getD 0 + 1 = 1
      rw [hempty]
      decide
    · intro m hm
      refine ⟨List.max?_mem (fun a b => max_choice a b) hm, ?_⟩
      show (countedDeliveryVersions siblings continuousVersioning today).max?.getD 0 + 1 = m + 1
      rw [hm]
      rfl
    · intro x
      rw [countedDeliveryVersions]
      simp only [List.mem_map, List.mem_filter, List.mem_filterMap]
      constructor
      · rintro ⟨⟨ver, dd⟩, ⟨⟨s, hs, hval⟩, hkeep⟩, hx⟩
        have hvx : ver = x := by simpa using hx
        subst hvx
        by_cases hfile : s.itemIsFile = true
        · rw [if_pos hfile] at hval
          cases hval
        · rw [if_neg hfile] at hval
          exact ⟨s, hs, by simpa using hfile, dd, hval,
            by simpa [Bool.or_eq_true, beq_iff_eq] using hkeep⟩
      · rintro ⟨s, hs, hfile, dd, hval, hkeep⟩
        refine ⟨⟨x, dd⟩, ⟨⟨s, hs, ?_⟩, ?_⟩, rfl⟩
        · rw [if_neg (by simp [hfile])]
          exact hval
        · simpa [Bool.or_eq_true, beq_iff_eq] using hkeep

/-- C4 witness: the numbering applied at an explicit override and at a
concrete sibling listing (a folder of version 3 dated today, a folder of
version 7 dated yesterday, a plain file, and an unparseable folder) with
continuous versioning off and today = 10. -/
theorem C4_delivery_version_witness :
    computeDeliveryVersion (some 5) [] false 0 = 5 ∧
    (3 : Int) ∈ countedDeliveryVersions
      [⟨false, some (3, 10)⟩, ⟨false, some (7, 9)⟩, ⟨true, some (9, 10)⟩, ⟨false, none⟩]
      false 10 ∧
    computeDeliveryVersion none
      [⟨false, some (3, 10)⟩, ⟨false, some (7, 9)⟩, ⟨true, some (9, 10)⟩, ⟨false, none⟩]
      false 10 = 3 + 1 := by
  refine ⟨(C4_delivery_version_numbering (some 5) [] false 0).1 5 rfl, ?_, ?_⟩
  · exact (((C4_delivery_version_numbering none
      [⟨false, some (3, 10)⟩, ⟨false, some (7, 9)⟩, ⟨true, some (9, 10)⟩, ⟨false, none⟩]
      false 10).2 rfl).2.2.1 3 (by decide)).1
  · exact (((C4_delivery_version_numbering none
      [⟨false, some (3, 10)⟩, ⟨false, some (7, 9)⟩, ⟨true, some (9, 10)⟩, ⟨false, none⟩]
      false 10).2 rfl).2.2.1 3 (by decide)).2

/-- C5: the per-version delivery procedure never lets an exception escape:
`FileExistsError` and the renderer's License error are reported as that
version's user-facing validation error with their respective fixed messages,
any other exception is reported with the generic message, and in every case
the surrounding batch loop still processes each remaining version. -/
theorem C5_per_version_error_containment
    (dl : Deliverables) (body : VState → VState × Option DeliveryExc) (v : VState)
    (hdl : (dl.deliverPreview || dl.deliverSequence) = true) :
    ((body v).2 = none → deliverVersion dl body v = (body v).1) ∧
    ((body v).2 = some .fileExists →
      deliverVersion dl body v =
        { (body v).1 with
          validationError := "Files already exist. Has this shot been exported before?" }) ∧
    (∀ m, (body v).2 = some (.license m) →
      deliverVersion dl body v =
        { (body v).1 with validationError := "A Nuke license error occurred!" }) ∧
    (∀ m, (body v).2 = some (.other m) →
      deliverVersion dl body v =
        { (body v).1 with
          validationError := "An error occurred while making the delivery, please check logs!" }) ∧
    (∀ pre post item,
      runDeliveryBatch (pre ++ item :: post) =
        runDeliveryBatch pre ++ deliverVersion item.1 item.2.1 item.2.2 :: runDeliveryBatch post) := by
  refine ⟨?_, ?_, ?_, ?_, ?_⟩
  · intro h
    simp [deliverVersion, hdl, h]
  · intro h
    simp [deliverVersion, hdl, h]
  · intro m h
    simp [deliverVersion, hdl, h]
  · intro m h
    simp [deliverVersion, hdl, h]
  · intro pre post item
    simp [runDeliveryBatch]

/-- C5 witness: a version whose delivery body raises `FileExistsError` ends
with the fixed user-facing message. -/
theorem C5_error_containment_witness :
    deliverVersion ⟨true, false⟩ (fun v => (v, some .fileExists)) {} =
      { ({} : VState) with
        validationError := "Files already exist. Has this shot been exported before?" } :=
  (C5_per_version_error_containment ⟨true, false⟩ (fun v => (v, some .fileExists)) {}
    (by decide)).2.1 rfl

/-- C6 counterexample: the as-stated claim says the wrapper re-invokes the
subprocess "exactly once" and that "a failure of the retried invocation raises
without any further retry".  With an argument list holding the
`--timecode-ref` pair twice and a subprocess that always fails with the
invalid-start-timecode error, the retried invocation's failure triggers a
second retry: three invocations happen, not two. -/
theorem C6_double_flag_retries_twice :
    (npRun (fun _ => "AddTimeCode: Invalid start time code")
        ["--timecode-ref", "a", "--timecode-ref", "b"] {}).invocations.length = 3 := by
  decide

/-- C6 (amended): for an argument list holding the `--timecode-ref` pair once
(the only shape the program builds), the wrapper behaves as claimed: a
non-empty stderr buffer raises with the buffer as message, except that an
invalid-start-timecode error with the flag present strips the flag pair,
resets its state (not started, progress reported as 0, error buffer cleared)
and re-invokes exactly once with the trimmed arguments; a failure of that
retried invocation raises without any further retry.  (With the pair repeated,
each failing retry strips one more pair and retries again.) -/
theorem C6_timecode_retry_once
    (oracle : List String → String) (args : List String) (s : NPState)
    (hs : s.errorMessage = "")
    (hflag : args.contains timecodeRefFlag = true)
    (hsingle : (removeTimecodePair args).contains timecodeRefFlag = false)
    (herr : oracle args ≠ "")
    (hmarker : pyIn timecodeErrorMarker (oracle args) = true) :
    npRun oracle args s =
      ⟨[args, removeTimecodePair args], [0],
       { hasStarted := false, hasRendered := false,
         errorMessage := oracle (removeTimecodePair args) },
       if oracle (removeTimecodePair args) = "" then .ok
       else .raised (oracle (removeTimecodePair args))⟩ ∧
    (∀ args' (s' : NPState), s'.errorMessage = "" → oracle args' ≠ "" →
      (pyIn timecodeErrorMarker (oracle args') && args'.contains timecodeRefFlag) = false →
      npRun oracle args' s' =
        ⟨[args'], [], { s' with errorMessage := oracle args' }, .raised (oracle args')⟩) := by
  constructor
  · rw [npRun_unfold]
    simp only [hs]
    have hbuf : ("" : String) ++ oracle args = oracle args := rfl
    rw [hbuf]
    rw [if_neg (by simpa using herr)]
    rw [if_pos (by rw [hmarker, hflag]; rfl)]
    rw [npRun_unfold]
    have hbuf2 : npResetState.errorMessage ++ oracle (removeTimecodePair args)
        = oracle (removeTimecodePair args) := rfl
    simp only [hbuf2]
    by_cases h2 : oracle (removeTimecodePair args) = ""
    · rw [if_pos (by simpa using h2)]
      simp [npResetState, h2]
    · rw [if_neg (by simpa using h2)]
      rw [if_neg (by rw [hsingle]; simp)]
      simp [npResetState, h2]
  · intro args' s' hs' herr' hcond
    rw [npRun_unfold]
    simp only [hs']
    have hbuf : ("" : String) ++ oracle args' = oracle args' := rfl
    rw [hbuf]
    rw [if_neg (by simpa using herr'), if_neg (by rw [hcond]; simp)]

/-- C6 witness: a subprocess failing with the timecode error only while the
flag is present: the wrapper retries once with the pair stripped and the
retry succeeds. -/
theorem C6_timecode_retry_witness :
    npRun
      (fun a => if a.contains "--timecode-ref" then "AddTimeCode: Invalid start time code" else "")
      ["--timecode-ref", "x"] {} =
      ⟨[["--timecode-ref", "x"], []], [0],
       { hasStarted := false, hasRendered := false, errorMessage := "" }, .ok⟩ := by
  have h := (C6_timecode_retry_once
    (fun a => if a.contains "--timecode-ref" then "AddTimeCode: Invalid start time code" else "")
    ["--timecode-ref", "x"] {} rfl (by decide) (by decide) (by decide) (by decide)).1
  simpa using h

/-- C7 counterexample: the as-stated claim says `<file.name_ranged>` replaces
"the first" `%0Nd` frame-pattern token.  The source uses `str.replace`, which
replaces every occurrence of the first-matched token's text: on a base name
holding the same token twice, both occurrences become the range literal. -/
theorem C7_repeated_token_both_replaced :
    resolveFileNameRanged "a.%04d.%04d.exr" 1 2 false = "a.[1-2].[1-2].exr" ∧
    resolveFileNameRanged "a.%04d.%04d.exr" 1 2 false ≠ "a.[1-2].%04d.exr" := by
  decide

/-- C7 (amended): `<file.name>` resolves to the base name unchanged (any
`%0Nd` placeholder kept literally; a template consisting of exactly the token
resolves to the value), and `<file.name_ranged>` replaces every occurrence of
the text of the first `%0Nd` token with the literal `[first-last]` range —
hence, for a base name containing a single frame token (the pipeline's case),
exactly that token — where `first` is the version's first frame decremented by
one exactly when the file context declares a slate frame. -/
theorem C7_name_and_name_ranged
    (a b : List Char) (d : Char) (firstFrame lastFrame : Int) (slate : Bool)
    (hd : d.isDigit = true)
    (ha : ∀ i, i < a.length →
      frameTokenAt ((a ++ ['%', '0', d, 'd'] ++ b).drop i) = none)
    (hb : ∀ j, j < b.length →
      (['%', '0', d, 'd'] : List Char).isPrefixOf (b.drop j) = false) :
    resolveFileName ⟨a ++ ['%', '0', d, 'd'] ++ b⟩ = ⟨a ++ ['%', '0', d, 'd'] ++ b⟩ ∧
    applyFileFieldTemplate ("<file." ++ "name" ++ ">") "name"
      (resolveFileName ⟨a ++ ['%', '0', d, 'd'] ++ b⟩) = ⟨a ++ ['%', '0', d, 'd'] ++ b⟩ ∧
    resolveFileNameRanged ⟨a ++ ['%', '0', d, 'd'] ++ b⟩ firstFrame lastFrame slate =
      ⟨a ++ (rangeToken (if slate then firstFrame - 1 else firstFrame) lastFrame).data ++ b⟩ := by
  have hb' : ∀ j, j < b.length →
      (['%', '0', d, 'd'] : List Char).isPrefixOf (b.drop j) = false := hb
  have ha' : ∀ i, i < a.length →
      (['%', '0', d, 'd'] : List Char).isPrefixOf ((a ++ ['%', '0', d, 'd'] ++ b).drop i) = false := by
    intro i hi
    by_contra hcontra
    have hpre : (['%', '0', d, 'd'] : List Char).isPrefixOf
        ((a ++ ['%', '0', d, 'd'] ++ b).drop i) = true := by
      revert hcontra
      cases (['%', '0', d, 'd'] : List Char).isPrefixOf ((a ++ ['%', '0', d, 'd'] ++ b).drop i) <;> simp
    have := frameTokenAt_of_isPrefixOf d hd _ hpre
    rw [ha i hi] at this
    cases this
  refine ⟨rfl, applyFileFieldTemplate_exact "name" _, ?_⟩
  rw [resolveFileNameRanged]
  have hfind : findFrameToken ((⟨a ++ ['%', '0', d, 'd'] ++ b⟩ : String)).data
      = some ['%', '0', d, 'd'] := findFrameToken_concat d hd a b ha
  rw [hfind]
  have hrepl := pyReplaceL_single_occurrence ['%', '0', d, 'd']
    (rangeToken (if slate then firstFrame - 1 else firstFrame) lastFrame).data
    (by simp) a b ha' hb'
  show String.mk (pyReplaceL ['%', '0', d, 'd'] _ (a ++ ['%', '0', d, 'd'] ++ b)) = _
  rw [hrepl]

/-- C7 witness: the spec's own example `shot010_v003.%04d.exr` with
`first_frame=1001, last_frame=1010`, without and with a slate frame. -/
theorem C7_name_ranged_witness :
    resolveFileNameRanged "shot010_v003.%04d.exr" 1001 1010 false
      = "shot010_v003.[1001-1010].exr" ∧
    resolveFileNameRanged "shot010_v003.%04d.exr" 1001 1010 true
      = "shot010_v003.[1000-1010].exr" ∧
    resolveFileName "shot010_v003.%04d.exr" = "shot010_v003.%04d.exr" := by
  have hfile : ("shot010_v003.%04d.exr" : String)
      = ⟨"shot010_v003.".data ++ ['%', '0', '4', 'd'] ++ ".exr".data⟩ := by decide
  have h1 := (C7_name_and_name_ranged "shot010_v003.".data ".exr".data '4' 1001 1010 false
    (by decide) (by decide) (by decide)).2.2
  have h2 := (C7_name_and_name_ranged "shot010_v003.".data ".exr".data '4' 1001 1010 true
    (by decide) (by decide) (by decide)).2.2
  refine ⟨?_, ?_, rfl⟩
  · rw [hfile, h1]
    decide
  · rw [hfile, h2]
    decide

/-- C8: the claim states that a version with sequence delivery, a non-empty
non-`.mov` sequence path and no valid published version number (the loader
passes `-1` when no published file exists) receives the distinct "published
file doesn't have a version" diagnostic.  The code violates this:
`Version.__init__` stores `max(0, int(version_number))`, so the `-1` sentinel
is clamped to `0` and the `version_number == -1` check in `validate_fields`
can never fire — the diagnostic is never appended for any constructed
version. -/
theorem C8_published_version_diagnostic_never_fires :
    storedVersionNumber (loaderVersionNumberArg none) = 0 ∧
    (∀ n : Int, storedVersionNumber n ≠ -1) ∧
    "The linked published file doesn't have a version." ∉
      validateFields (fun _ => true)
        { firstFrame := some 1, lastFrame := some 2, fps := some "24",
          pathToMovie := some "/m.mov", sequencePath := some "seq.%04d.exr",
          versionNumber := storedVersionNumber (loaderVersionNumberArg none),
          deliverSequence := true } := by
  refine ⟨rfl, ?_, by decide⟩
  intro n heq
  have h0 : (0 : Int) ≤ storedVersionNumber n := le_max_left 0 n
  rw [heq] at h0
  omega

/-- C9: for every entity (Shot or Asset) and every sequence of `add_version`
calls in any order, `get_versions()` returns the versions sorted ascending by
`version_number`, the sorted order being re-established on every insertion,
and the stored collection holds exactly the inserted versions. -/
theorem C9_versions_always_sorted (versions : List Version) (v : Version)
    (inserts : List Version) :
    List.Sorted versionOrder (shotAddVersion versions v) ∧
    List.Sorted versionOrder (assetAddVersion versions v) ∧
    List.Perm (shotAddVersion versions v) (versions ++ [v]) ∧
    List.Perm (assetAddVersion versions v) (versions ++ [v]) ∧
    List.Sorted versionOrder (List.foldl shotAddVersion [] inserts) ∧
    List.Perm (List.foldl shotAddVersion [] inserts) inserts := by
  refine ⟨List.sorted_insertionSort versionOrder _, List.sorted_insertionSort versionOrder _,
    List.perm_insertionSort versionOrder _, List.perm_insertionSort versionOrder _, ?_, ?_⟩
  · rcases List.eq_nil_or_concat inserts with h | ⟨l', x, h⟩
    · subst h
      exact List.sorted_nil
    · subst h
      rw [List.concat_eq_append, List.foldl_concat]
      exact List.sorted_insertionSort versionOrder _
  · have := foldl_shotAddVersion_perm inserts []
    simpa using this

/-- C10: on the no-rerender fast path, the progress reported after delivering
each frame is `(frame - first) / (last_frame - first)` with `first` the
slate-adjusted first frame; the quotient is well-defined exactly under
`last_frame > first` (the loop then completes and its final report is 1),
while a version whose `last_frame` equals its slate-adjusted first frame hits
a division by zero on the first frame instead of completing at progress 1. -/
theorem C10_fast_path_division_by_zero (firstFrame lastFrame : Int) (slate : Bool) :
    (adjustedFirstFrame firstFrame slate < lastFrame →
      fastPathDeliver firstFrame lastFrame slate =
        ⟨(intRange (adjustedFirstFrame firstFrame slate) (lastFrame + 1)).map
            (fun f => ((f - adjustedFirstFrame firstFrame slate : Int) : ℚ) /
              ((lastFrame - adjustedFirstFrame firstFrame slate : Int) : ℚ)), true⟩ ∧
      (fastPathDeliver firstFrame lastFrame slate).progressReports.getLast? = some 1) ∧
    (lastFrame = adjustedFirstFrame firstFrame slate →
      fastPathDeliver firstFrame lastFrame slate = ⟨[], false⟩) := by
  constructor
  · intro hlt
    have hne : ¬(lastFrame - adjustedFirstFrame firstFrame slate = 0) := by omega
    have heq : fastPathDeliver firstFrame lastFrame slate =
        ⟨(intRange (adjustedFirstFrame firstFrame slate) (lastFrame + 1)).map
            (fun f => ((f - adjustedFirstFrame firstFrame slate : Int) : ℚ) /
              ((lastFrame - adjustedFirstFrame firstFrame slate : Int) : ℚ)), true⟩ := by
      rw [fastPathDeliver]
      simp only [hne, and_false, if_false]
    refine ⟨heq, ?_⟩
    rw [heq]
    have hconcat := intRange_succ_top (adjustedFirstFrame firstFrame slate) lastFrame
      (le_of_lt hlt)
    rw [hconcat, List.map_append]
    simp only [List.map_cons, List.map_nil]
    rw [List.getLast?_concat]
    have hq : ((lastFrame - adjustedFirstFrame firstFrame slate : Int) : ℚ) ≠ 0 := by
      exact_mod_cast hne
    rw [div_self hq]
  · intro hfin
    rw [fastPathDeliver]
    rw [if_pos]
    constructor
    · rw [← hfin, intRange_single]
      simp
    · omega

/-- C10 witness: frames 10..12 complete at progress 1; a single-frame sequence
(`first = last = 10`) aborts with a division by zero before any report. -/
theorem C10_fast_path_witness :
    (fastPathDeliver 10 12 false).progressReports.getLast? = some 1 ∧
    fastPathDeliver 10 10 false = ⟨[], false⟩ :=
  ⟨((C10_fast_path_division_by_zero 10 12 false).1 (by decide)).2,
   (C10_fast_path_division_by_zero 10 10 false).2 rfl⟩

end Deliveries
